import Mathlib

/-!
Verification development for the log-analyzer agent
(`log-analyzer-agent/main.py` and `log-analyzer-agent/browser_agent.py`).

Strings are modelled as lists of characters (`Str`).  Python operations that
can raise are modelled in the `Except PyError` monad; an uncaught Python
exception corresponds to an `Except.error` value escaping a definition.
Distinct Python exception classes that the source never distinguishes
(TypeError and AttributeError) are folded into a single constructor.
-/

namespace LogAnalyzer

abbrev Str := List Char

def str (s : String) : Str := s.data

def lbrace : Char := Char.ofNat 123
def rbrace : Char := Char.ofNat 125
def btick : Char := Char.ofNat 96
def squote : Char := Char.ofNat 39

/-- Python substring containment, `sub in s`. -/
def containsSub (sep : Str) : Str → Bool
  | [] => sep.isEmpty
  | c :: rest => sep.isPrefixOf (c :: rest) || containsSub sep rest

/-- The text before the first occurrence of `sep` (the whole text when `sep`
does not occur): Python `s.split(sep)[0]`. -/
def tBF (sep : Str) : Str → Str
  | [] => []
  | c :: rest => if sep.isPrefixOf (c :: rest) then [] else c :: tBF sep rest

/-- The text after the first occurrence of `sep` (empty when `sep` does not
occur, a case the source never reaches because it is guarded by an `in`
test).  Python split scans occurrences left to right without overlap, so
`s.split(sep)[1] = tBF sep (tAF sep s)` whenever `sep` occurs in `s`. -/
def tAF (sep : Str) : Str → Str
  | [] => []
  | c :: rest => if sep.isPrefixOf (c :: rest) then (c :: rest).drop sep.length else tAF sep rest

/-- JSON whitespace (also the characters skipped by the json module). -/
def wsChar (c : Char) : Bool := c = ' ' || c = '\t' || c = '\n' || c = '\r'

def skipWs : Str → Str
  | [] => []
  | c :: rest => if wsChar c then skipWs rest else c :: rest

/-- Python `str.strip()` whitespace set (ASCII part). -/
def pyWs (c : Char) : Bool :=
  c = ' ' || c = '\t' || c = '\n' || c = '\r' || c = '\x0b' || c = '\x0c'

/-- Python `str.strip()`. -/
def pyStrip (s : Str) : Str :=
  ((s.dropWhile pyWs).reverse.dropWhile pyWs).reverse

/-- Python `s.find(c)` for a character known to occur. -/
def firstIdxOf (c : Char) (s : Str) : Nat := s.findIdx (· = c)

/-- Python `s.rfind(c)` for a character known to occur. -/
def lastIdxOf (c : Char) (s : Str) : Nat :=
  s.length - 1 - s.reverse.findIdx (· = c)

/-- Python exceptions that can escape the modelled code.  TypeError also
covers AttributeError, which the source treats identically (both uncaught). -/
inductive PyError where
  | jsonDecodeErr
  | typeErr
  | validationErr
  | keyErr
  | runtimeBudget
deriving DecidableEq

deriving instance DecidableEq for Except

/-- JSON values as produced by `json.loads`.  Number literals keep their
lexeme: no claim observes numeric semantics.  Objects are key-value lists in
insertion order with duplicate keys already collapsed (last wins), matching
the dict `json.loads` builds. -/
inductive Json where
  | jnull
  | jbool (b : Bool)
  | jnum (lexeme : Str)
  | jstr (s : Str)
  | jarr (items : List Json)
  | jobj (kvs : List (Str × Json))

/-- Dict insertion: overwrite in place on an existing key, append otherwise. -/
def insertKV (acc : List (Str × Json)) (k : Str) (v : Json) : List (Str × Json) :=
  if acc.any (fun kv => decide (kv.1 = k)) then
    acc.map (fun kv => if kv.1 = k then (k, v) else kv)
  else acc ++ [(k, v)]

/-- Dict lookup. -/
def objGet (kvs : List (Str × Json)) (k : Str) : Option Json :=
  (kvs.find? (fun kv => decide (kv.1 = k))).map (·.2)

def hexVal (c : Char) : Option Nat :=
  if '0' ≤ c ∧ c ≤ '9' then some (c.toNat - 48)
  else if 'a' ≤ c ∧ c ≤ 'f' then some (c.toNat - 87)
  else if 'A' ≤ c ∧ c ≤ 'F' then some (c.toNat - 55)
  else none

/-- Prepend a decoded character to a string-parse result. -/
def consFst (c : Char) : Except Unit (Str × Str) → Except Unit (Str × Str)
  | .ok (s, r) => .ok (c :: s, r)
  | .error u => .error u

/-- Value of four hex digits, when all four are valid. -/
def hex4 (a b c d : Char) : Option Nat := do
  let x1 ← hexVal a
  let x2 ← hexVal b
  let x3 ← hexVal c
  let x4 ← hexVal d
  some (x1 * 4096 + x2 * 256 + x3 * 16 + x4)

/-- Body of a JSON string literal after the opening quote: returns the
decoded characters and the input remaining after the closing quote.  Raw
control characters are rejected (the json module's default strict mode);
`\uXXXX` escapes are decoded without surrogate pairing. -/
def parseStrChars : Str → Except Unit (Str × Str)
  | [] => .error ()
  | c :: rest =>
    if c = '"' then .ok ([], rest)
    else if c = '\\' then
      match rest with
      | [] => .error ()
      | e :: rest2 =>
        if e = '"' ∨ e = '\\' ∨ e = '/' then consFst e (parseStrChars rest2)
        else if e = 'b' ∨ e = 'f' ∨ e = 'n' ∨ e = 'r' ∨ e = 't' then
          let d : Char :=
            if e = 'b' then '\x08' else if e = 'f' then '\x0c'
            else if e = 'n' then '\n' else if e = 'r' then '\r' else '\t'
          consFst d (parseStrChars rest2)
        else if e = 'u' then
          match rest2 with
          | h1 :: h2 :: h3 :: h4 :: rest3 =>
            (hex4 h1 h2 h3 h4).elim (.error ())
              (fun n => consFst (Char.ofNat n) (parseStrChars rest3))
          | _ => .error ()
        else .error ()
    else if c.toNat < 32 then .error ()
    else consFst c (parseStrChars rest)

def spanDigits (s : Str) : Str × Str := (s.takeWhile Char.isDigit, s.dropWhile Char.isDigit)

def parseFracPart : Str → Except Unit (Str × Str)
  | '.' :: r =>
    let (ds, r2) := spanDigits r
    if ds = [] then .error () else .ok ('.' :: ds, r2)
  | s => .ok ([], s)

def parseExpPart : Str → Except Unit (Str × Str)
  | [] => .ok ([], [])
  | c :: r =>
    if c = 'e' ∨ c = 'E' then
      match r with
      | sgn :: r2 =>
        if sgn = '+' ∨ sgn = '-' then
          let (ds, r3) := spanDigits r2
          if ds = [] then .error () else .ok (c :: sgn :: ds, r3)
        else
          let (ds, r2b) := spanDigits r
          if ds = [] then .error () else .ok (c :: ds, r2b)
      | [] => .error ()
    else .ok ([], c :: r)

/-- JSON number literal: `-?(0|[1-9][0-9]*)(\.[0-9]+)?([eE][+-]?[0-9]+)?`. -/
def parseNum (s : Str) : Except Unit (Str × Str) := do
  let (sgn, s1) :=
    match s with
    | c :: r => if c = '-' then (['-'], r) else (([] : Str), s)
    | [] => ([], s)
  match s1 with
  | [] => .error ()
  | c :: r =>
    if c = '0' then do
      let (fr, r2) ← parseFracPart r
      let (ex, r3) ← parseExpPart r2
      .ok (sgn ++ '0' :: (fr ++ ex), r3)
    else if c.isDigit then do
      let (ds, r1) := spanDigits r
      let (fr, r2) ← parseFracPart r1
      let (ex, r3) ← parseExpPart r2
      .ok (sgn ++ c :: ds ++ fr ++ ex, r3)
    else .error ()

/-- The tails of the `true`, `false` and `null` literals. -/
def parseTrueLit : Str → Except Unit (Json × Str)
  | 'r' :: 'u' :: 'e' :: r => .ok (.jbool true, r)
  | _ => .error ()

def parseFalseLit : Str → Except Unit (Json × Str)
  | 'a' :: 'l' :: 's' :: 'e' :: r => .ok (.jbool false, r)
  | _ => .error ()

def parseNullLit : Str → Except Unit (Json × Str)
  | 'u' :: 'l' :: 'l' :: r => .ok (.jnull, r)
  | _ => .error ()

mutual

/-- Recursive-descent JSON value parser.  The fuel argument only bounds the
mutual recursion (every mutual call decrements it); `pyJsonLoads` supplies
enough for any input. -/
def parseValue : Nat → Str → Except Unit (Json × Str)
  | 0, _ => .error ()
  | fuel + 1, s => parseValueAt fuel (skipWs s)

/-- Value parser on whitespace-stripped input. -/
def parseValueAt : Nat → Str → Except Unit (Json × Str)
  | _, [] => .error ()
  | 0, _ => .error ()
  | fuel + 1, c :: rest =>
    if c = '"' then
      (parseStrChars rest).map (fun p => (.jstr p.1, p.2))
    else if c = lbrace then parseBraceAt fuel (skipWs rest) rest
    else if c = '[' then parseBracketAt fuel (skipWs rest) rest
    else if c = 't' then parseTrueLit rest
    else if c = 'f' then parseFalseLit rest
    else if c = 'n' then parseNullLit rest
    else (parseNum (c :: rest)).map (fun p => (.jnum p.1, p.2))

/-- After an opening brace: `w` is the stripped remainder, `rest` the raw
remainder handed to the member parser. -/
def parseBraceAt : Nat → Str → Str → Except Unit (Json × Str)
  | _, [], _ => .error ()
  | 0, _, _ => .error ()
  | fuel + 1, d :: r, rest =>
    if d = rbrace then .ok (.jobj [], r) else parseMembers fuel rest []

/-- After an opening bracket. -/
def parseBracketAt : Nat → Str → Str → Except Unit (Json × Str)
  | _, [], _ => .error ()
  | 0, _, _ => .error ()
  | fuel + 1, d :: r, rest =>
    if d = ']' then .ok (.jarr [], r) else parseItems fuel rest []

/-- Comma-separated array items up to the closing bracket. -/
def parseItems : Nat → Str → List Json → Except Unit (Json × Str)
  | 0, _, _ => .error ()
  | fuel + 1, s, acc => do
    let (v, r) ← parseValue fuel s
    match skipWs r with
    | ',' :: r2 => parseItems fuel r2 (acc ++ [v])
    | ']' :: r2 => .ok (.jarr (acc ++ [v]), r2)
    | _ => .error ()

/-- Comma-separated object members up to the closing brace. -/
def parseMembers : Nat → Str → List (Str × Json) → Except Unit (Json × Str)
  | 0, _, _ => .error ()
  | fuel + 1, s, acc => parseMembersAt fuel (skipWs s) acc

/-- Member parser on whitespace-stripped input. -/
def parseMembersAt : Nat → Str → List (Str × Json) → Except Unit (Json × Str)
  | 0, _, _ => .error ()
  | fuel + 1, '"' :: r, acc => do
    let (k, r2) ← parseStrChars r
    match skipWs r2 with
    | ':' :: r3 => do
      let (v, r4) ← parseValue fuel r3
      match skipWs r4 with
      | ',' :: r5 => parseMembers fuel r5 (insertKV acc k v)
      | d :: r5 => if d = rbrace then .ok (.jobj (insertKV acc k v), r5) else .error ()
      | [] => .error ()
    | _ => .error ()
  | _, _, _ => .error ()

end

/-- Python `json.loads`: parse a complete document, allowing surrounding
whitespace only.  Raises `JSONDecodeError` on anything else.  (The json
module's NaN/Infinity extension is not modelled; no claim exercises it.) -/
def pyJsonLoads (s : Str) : Except PyError Json :=
  match parseValue (4 * s.length + 8) s with
  | .ok (v, rest) => if skipWs rest = [] then .ok v else .error .jsonDecodeErr
  | .error _ => .error .jsonDecodeErr

def escStrChar (c : Char) : Str :=
  if c = '"' then ['\\', '"']
  else if c = '\\' then ['\\', '\\']
  else if c = '\n' then ['\\', 'n']
  else if c = '\r' then ['\\', 'r']
  else if c = '\t' then ['\\', 't']
  else if c.toNat < 32 then
    let d (n : Nat) : Char := if n < 10 then Char.ofNat (48 + n) else Char.ofNat (87 + n - 10)
    ['\\', 'u', '0', '0', d (c.toNat / 16), d (c.toNat % 16)]
  else [c]

mutual

/-- `json.dumps` with `ensure_ascii=False`.  Indentation and number
normalisation are not modelled: no claim observes the dumped text. -/
def dumpsJson : Json → Str
  | .jnull => str "null"
  | .jbool true => str "true"
  | .jbool false => str "false"
  | .jnum lex => lex
  | .jstr s => '"' :: (s.flatMap escStrChar) ++ ['"']
  | .jarr items => '[' :: dumpsList items ++ [']']
  | .jobj kvs => lbrace :: dumpsKVs kvs ++ [rbrace]

def dumpsList : List Json → Str
  | [] => []
  | [v] => dumpsJson v
  | v :: rest => dumpsJson v ++ ',' :: ' ' :: dumpsList rest

def dumpsKVs : List (Str × Json) → Str
  | [] => []
  | [(k, v)] => '"' :: (k.flatMap escStrChar) ++ '"' :: ':' :: ' ' :: dumpsJson v
  | (k, v) :: rest =>
    '"' :: (k.flatMap escStrChar) ++ '"' :: ':' :: ' ' :: dumpsJson v ++ ',' :: ' ' :: dumpsKVs rest

end

/-! ## Data model (`main.py` / `browser_agent.py` pydantic classes) -/

/-- `main.py` `AnalysisReport`: six required string fields. -/
structure AnalysisReport where
  event_id : Str
  error_code : Str
  error_summary : Str
  server_status : Str
  risk_level : Str
  recommendation : Str
deriving DecidableEq

/-- `browser_agent.py` `LogAnalysisResult`: six required string fields and
two optional string fields defaulting to `None`. -/
structure LogAnalysisResult where
  event_id : Str
  error_code : Str
  error_summary : Str
  affected_module : Str
  user_info : Option Str := none
  risk_level : Str
  recommendation : Str
  raw_error_logs : Option Str := none
deriving DecidableEq

/-- Pydantic construction `AnalysisReport(**data)`.  A non-dict value raises
TypeError (`**` needs a mapping); a dict missing a required field or binding
it to a non-string raises ValidationError; extra keys are ignored. -/
def validateAnalysisReport : Json → Except PyError AnalysisReport
  | .jobj kvs =>
    match objGet kvs (str "event_id"), objGet kvs (str "error_code"),
        objGet kvs (str "error_summary"), objGet kvs (str "server_status"),
        objGet kvs (str "risk_level"), objGet kvs (str "recommendation") with
    | some (.jstr a), some (.jstr b), some (.jstr c), some (.jstr d),
        some (.jstr e), some (.jstr f) => .ok ⟨a, b, c, d, e, f⟩
    | _, _, _, _, _, _ => .error .validationErr
  | _ => .error .typeErr

def optStrField (kvs : List (Str × Json)) (k : Str) : Option (Option Str) :=
  match objGet kvs k with
  | none => some none
  | some .jnull => some none
  | some (.jstr s) => some (some s)
  | some _ => none

/-- Pydantic construction `LogAnalysisResult(**data)`. -/
def validateLogAnalysisResult : Json → Except PyError LogAnalysisResult
  | .jobj kvs =>
    match objGet kvs (str "event_id"), objGet kvs (str "error_code"),
        objGet kvs (str "error_summary"), objGet kvs (str "affected_module"),
        objGet kvs (str "risk_level"), objGet kvs (str "recommendation"),
        optStrField kvs (str "user_info"), optStrField kvs (str "raw_error_logs") with
    | some (.jstr a), some (.jstr b), some (.jstr c), some (.jstr d),
        some (.jstr e), some (.jstr f), some u, some w =>
      .ok ⟨a, b, c, d, u, e, f, w⟩
    | _, _, _, _, _, _, _, _ => .error .validationErr
  | _ => .error .typeErr

/-! ## Extraction (`main.py` lines 426-448, `browser_agent.py` lines 172-204) -/

def sepJ : Str := str "```json"
def sepA : Str := str "```"

/-- JSON-candidate selection of `main.py` (`analyze`, lines 428-434):
labelled fence, else first fence, else the whole text.  Python
`content.split(sep)[1].split(sep2)[0]` is `tBF sep2 (tBF sep (tAF sep content))`
when `sep` occurs in `content`, which the guarding `in` test ensures. -/
def mainCandidate (content : Str) : Str :=
  if containsSub sepJ content then tBF sepA (tBF sepJ (tAF sepJ content))
  else if containsSub sepA content then tBF sepA (tBF sepA (tAF sepA content))
  else content

/-- JSON-candidate selection of `browser_agent.py`
(`_parse_agent_result`, lines 179-189): as `mainCandidate` plus a
brace-span step, `content[content.find(lb) : content.rfind(rb) + 1]`. -/
def browserCandidate (content : Str) : Str :=
  if containsSub sepJ content then tBF sepA (tBF sepJ (tAF sepJ content))
  else if containsSub sepA content then tBF sepA (tBF sepA (tAF sepA content))
  else if containsSub [lbrace] content && containsSub [rbrace] content then
    let start := firstIdxOf lbrace content
    let stop := lastIdxOf rbrace content + 1
    (content.drop start).take (stop - start)
  else content

/-- Degraded report of `main.py` (lines 441-448). -/
def degradedMain (content : Str) : AnalysisReport :=
  { event_id := str "UNKNOWN"
    error_code := str "PARSE_ERROR"
    error_summary := if content ≠ [] then content.take 200 else str "无法解析模型输出"
    server_status := str "未知"
    risk_level := str "medium"
    recommendation := str "请检查 Agent 输出格式" }

/-- Degraded result of `browser_agent.py` (lines 197-204). -/
def degradedBrowser (event_id content : Str) : LogAnalysisResult :=
  { event_id := event_id
    error_code := str "PARSE_ERROR"
    error_summary := if content ≠ [] then content.take 200 else str "无法解析 Agent 输出"
    affected_module := str "未知"
    risk_level := str "medium"
    recommendation := str "请检查日志页面是否正常加载，或手动查看浏览器窗口" }

/-- Final-answer extraction of `main.py` (`analyze` lines 426-448): the try
block catches only `JSONDecodeError`, `IndexError` and `KeyError`, so a
pydantic error from `AnalysisReport(**report_data)` escapes.  (The split
indexing inside the try block cannot raise IndexError: it is guarded by the
`in` tests.) -/
def mainExtract (content : Str) : Except PyError AnalysisReport :=
  match pyJsonLoads (pyStrip (mainCandidate content)) with
  | .error _ => .ok (degradedMain content)
  | .ok v => validateAnalysisReport v

/-- Result extraction of `browser_agent.py` (`_parse_agent_result`): the
handler catches every exception, returning the degraded result. -/
def browserExtract (event_id content : Str) : Except PyError LogAnalysisResult :=
  match pyJsonLoads (pyStrip (browserCandidate content)) with
  | .error _ => .ok (degradedBrowser event_id content)
  | .ok v =>
    match validateLogAnalysisResult v with
    | .ok r => .ok r
    | .error _ => .ok (degradedBrowser event_id content)

/-- The system instruction of `main.py` (`LogAnalyzerAgent.__init__`). -/
def systemPromptText : String := "你是一个专业的错误日志分析专家，专门分析道聚城(DJC)等腾讯游戏服务的日志。\n\n你的工作流程：\n1. 从用户输入中识别 EventID（格式如 DJC-CF-1211212348-8RJKIC-529-425718、AMS-H2-xxx 等）\n2. 调用 fetch_error_log 获取原始日志文本\n3. **仔细解析日志内容**，从日志中提取关键信息\n4. 综合分析，生成报告\n\nEventID 识别规则：\n- 通常以平台名开头：DJC-、AMS-、LotteryV31- 等\n- 包含多个用 - 分隔的部分\n- 用户可能说\"我遇到问题了，流水号是xxx\"或直接给出ID\n\n日志格式说明：\n```\n[F:IP地址|QQ:QQ号]日期 时间|日志级别||[源文件:行号][流水号][模块名][OPENID:]日志内容\n```\n\n日志级别：\n- INF = INFO（信息）\n- ER = ERROR（错误）  ← 重点关注\n- WRN = WARN（警告）\n\n解析要点：\n1. 找出所有 ER（ERROR）级别的日志行\n2. 提取错误码（如 -6712）和错误信息\n3. 识别模块名（如 [app.coupon.available]）\n4. 分析调用链路和失败原因\n5. 提取关键上下文（QQ号、订单号、请求参数等）\n\n常见错误码含义：\n- 负数错误码通常表示后端服务返回的业务错误\n- \"系统繁忙\" 通常表示后端服务过载或超时\n\n输出要求：\n最终输出 JSON 格式的分析报告：\n```json\n\x7b\n    \"event_id\": \"事件ID\",\n    \"error_code\": \"从日志中提取的错误码，如 -6712\",\n    \"error_summary\": \"一句话概括：什么模块、什么错误、影响什么功能\",\n    \"server_status\": \"根据日志推断的服务状态\",\n    \"risk_level\": \"low/medium/high/critical\",\n    \"recommendation\": \"具体可执行的处理建议\"\n\x7d\n```\n\n风险等级判断：\n- critical: 支付相关错误、大面积服务不可用\n- high: 核心功能（如优惠券、登录）失败\n- medium: 非核心功能异常、偶发错误\n- low: 可忽略的警告、已自动恢复\n"

/-- Mock report for `order-service`; `now` stands for the `datetime.now()` timestamp. -/
def orderReport (now : Str) : Str :=
  str "\n=== Service Health Report: order-service ===\nGenerated at: " ++ now ++ str "\n\n[Infrastructure]\n- Primary DB: db-primary-01 (MySQL 8.0)\n- Replica DB: db-replica-01, db-replica-02\n- Cache: redis-cluster-01\n\n[Current Status: DEGRADED]\n- Service uptime: 99.2% (last 24h)\n- Current error rate: 2.5%\n- Avg response time: 450ms (normal: 120ms)\n- Active connections: 1,247\n\n[Today\x27s Incidents]\n- 09:15 - Database connection pool exhaustion (resolved)\n- 10:30 - High latency detected, auto-scaling triggered\n- 10:45 - Connection pool size increased from 50 to 100\nTotal incidents today: 15\n\n[Resource Usage]\n- CPU: 78% (warning threshold: 80%)\n- Memory: 6.2GB / 8GB (77.5%)\n- DB Connections: 95/100 (95% - CRITICAL)\n\n[Recommendations]\n- Consider increasing connection pool size\n- Review slow queries in the last hour\n- Monitor for potential memory leak\n"

/-- Mock report for `auth-service`; `now` stands for the `datetime.now()` timestamp. -/
def authReport (now : Str) : Str :=
  str "\n=== Service Health Report: auth-service ===\nGenerated at: " ++ now ++ str "\n\n[Infrastructure]\n- Auth servers: auth-01, auth-02, auth-03 (load balanced)\n- Token store: Redis Sentinel cluster\n\n[Current Status: HEALTHY]\n- Service uptime: 99.99% (last 24h)\n- Current error rate: 0.1%\n- Avg response time: 45ms\n- Active sessions: 23,456\n\n[Today\x27s Incidents]\n- 08:30 - Routine certificate rotation (planned)\n- 09:15 - 2 expired token rejections (normal behavior)\nTotal incidents today: 2\n\n[Resource Usage]\n- CPU: 25%\n- Memory: 2.1GB / 4GB (52.5%)\n- Redis connections: 45/200 (22.5%)\n\n[Notes]\n- All systems operating normally\n- No action required\n"

/-- Mock report for `payment-service`; `now` stands for the `datetime.now()` timestamp. -/
def paymentReport (now : Str) : Str :=
  str "\n=== Service Health Report: payment-service ===\nGenerated at: " ++ now ++ str "\n\n[Infrastructure]\n- Payment gateway: Stripe API\n- Fallback gateway: PayPal API (inactive)\n- Transaction DB: payment-db-01\n\n[Current Status: DOWN - CRITICAL]\n- Service uptime: 54.8% (last 24h)\n- Current error rate: 45.2%\n- Avg response time: TIMEOUT\n- Failed transactions: 1,247 (last hour)\n\n[Today\x27s Incidents]\n- 12:00 - Stripe API intermittent failures started\n- 13:30 - Error rate exceeded 10%, alerts triggered\n- 14:00 - Circuit breaker activated\n- 14:15 - Stripe status page confirms outage\n- 14:22 - All payment requests failing\nTotal incidents today: 128\n\n[External Dependencies]\n- Stripe API Status: MAJOR OUTAGE (https://status.stripe.com)\n- Estimated recovery: Unknown\n\n[URGENT ACTIONS REQUIRED]\n1. Consider activating PayPal fallback gateway\n2. Notify customers of payment delays\n3. Queue failed transactions for retry\n4. Contact Stripe support for ETA\n"

/-- Default report for an unknown service name. -/
def unknownReport (now service_name : Str) : Str :=
  str "\n=== Service Health Report: " ++ service_name ++ str " ===\nGenerated at: " ++ now ++ str "\n\n[Status: UNKNOWN]\nService not found in monitoring system.\nPlease verify the service name and try again.\n"

/-! ## Tools (`main.py` lines 59-233, 275-278, 351-359) -/

/-- Platform-name derivation of `fetch_error_log` (line 67):
`event_id.split("-")[0] if "-" in event_id else "AMS"`. -/
def platName (event_id : Str) : Str :=
  if containsSub (str "-") event_id then tBF (str "-") event_id else str "AMS"

/-- The request `requests.get` receives: query parameters and the optional
authentication cookie header (the fixed User-Agent and Referer headers carry
no information).  `urlParam` is the `url` query parameter built at line 71. -/
structure HttpRequest where
  urlParam : Str
  setParam : Str
  refererParam : Str
  cookie : Option Str
deriving DecidableEq

/-- Outcome of `requests.get`: a raised `RequestException` (with its text) or
a response with a status code and body. -/
inductive HttpOutcome where
  | raises (msg : Str)
  | resp (status : Nat) (body : Str)

/-- Text of the `HTTPError` that `raise_for_status` raises on a 4xx/5xx
status; only its existence matters to the claims, not its exact wording. -/
def statusErrText (status : Nat) : Str := (Nat.repr status).data ++ str " Error for url"

/-- Python `key in v` where `key` is a string: key test on a dict, substring
test on a string, membership on a list, TypeError otherwise. -/
def pyInStr (key : Str) : Json → Except PyError Bool
  | .jobj kvs => .ok (kvs.any (fun kv => decide (kv.1 = key)))
  | .jstr s => .ok (containsSub key s)
  | .jarr items =>
    .ok (items.any (fun it => match it with | .jstr s => decide (s = key) | _ => false))
  | _ => .error .typeErr

/-- Python `v[key]` where `key` is a string: dict lookup (KeyError when
absent), TypeError on anything else. -/
def pySubscript (v : Json) (key : Str) : Except PyError Json :=
  match v with
  | .jobj kvs =>
    match objGet kvs key with
    | some w => .ok w
    | none => .error .keyErr
  | _ => .error .typeErr

/-- The log-collection loop of `fetch_error_log` (lines 105-110): for each
item keep `item["content"]`, else `json.dumps(item)` when it has a
`jsonHeader` key.  The kept values stay unconverted, so a non-string
`content` value later breaks `"\n".join`. -/
def collectLogs : List Json → Except PyError (List Json)
  | [] => .ok []
  | item :: rest => do
    let hasContent ← pyInStr (str "content") item
    if hasContent then
      let v ← pySubscript item (str "content")
      let tl ← collectLogs rest
      .ok (v :: tl)
    else
      let hasHeader ← pyInStr (str "jsonHeader") item
      if hasHeader then
        let tl ← collectLogs rest
        .ok (.jstr (dumpsJson item) :: tl)
      else collectLogs rest

/-- Python `"\n".join(logs)`: TypeError unless every element is a string. -/
def joinNl : List Json → Except PyError Str
  | [] => .ok []
  | [.jstr s] => .ok s
  | .jstr s :: rest => do
    let tl ← joinNl rest
    .ok (s ++ '\n' :: tl)
  | _ => .error .typeErr

def loginErrText (content : Str) : Str :=
  str "[ERROR] 需要登录认证。请在 .env 文件中设置 LOG_SERVICE_COOKIE\n原始响应: " ++ content.take 500

def fetchFailText (msg : Str) : Str := str "[ERROR] 获取日志失败: " ++ msg

def logResultMarker : Str := str "var log_result="

/-- `fetch_error_log` (lines 59-119).  `http` stands for `requests.get`;
`cookie` for the `LOG_SERVICE_COOKIE` configuration value (added as a header
only when non-empty, like the `if AUTH_COOKIE` guard).  The `try` block
catches `RequestException` only, so the TypeErrors possible in the
`var log_result=` processing escape. -/
def fetch_error_log (http : HttpRequest → HttpOutcome) (cookie : Str) (event_id : Str) :
    Except PyError Str :=
  let plat_name := platName event_id
  let req : HttpRequest :=
    { urlParam := str "plat_name=" ++ plat_name ++ str "&serial_num=" ++ event_id ++
        str "&source_charset=utf8"
      setParam := []
      refererParam := str "http://help.ied.com/helpv2/html/showInfo_v2.html"
      cookie := if cookie = [] then none else some cookie }
  match http req with
  | .raises msg => .ok (fetchFailText msg)
  | .resp status content =>
    if 400 ≤ status ∧ status < 600 then .ok (fetchFailText (statusErrText status))
    else if containsSub (str "未找到登录") content || containsSub (str "urlJump") content then
      .ok (loginErrText content)
    else if logResultMarker.isPrefixOf content then
      let json_str := content.drop logResultMarker.length
      match pyJsonLoads json_str with
      | .error _ => .ok content
      | .ok log_data => do
        let hasResult ← pyInStr (str "result") log_data
        if hasResult then do
          let rv ← pySubscript log_data (str "result")
          match rv with
          | .jarr items => do
            let logs ← collectLogs items
            if logs.isEmpty then .ok (dumpsJson log_data)
            else joinNl logs
          | _ => .ok (dumpsJson log_data)
        else .ok (dumpsJson log_data)
    else .ok content

/-- `check_server_status` (lines 122-233): lookup in the mock dict, default
report otherwise.  `now` stands for `datetime.now().strftime(...)`. -/
def check_server_status (now : Str) (service_name : Str) : Str :=
  if service_name = str "order-service" then orderReport now
  else if service_name = str "auth-service" then authReport now
  else if service_name = str "payment-service" then paymentReport now
  else unknownReport now service_name

def unknownToolText (tool_name : Str) : Str :=
  str "Error: Unknown tool " ++ squote :: tool_name ++ [squote]

/-- Binding `f(**arguments)` for a function with exactly one parameter: the
dict must hold exactly that key (missing or extra keys raise TypeError), and
a non-dict raises TypeError. -/
def bindOneArg (pname : Str) (args : Json) : Except PyError Json :=
  match args with
  | .jobj [(k, v)] => if k = pname then .ok v else .error .typeErr
  | _ => .error .typeErr

/-- `LogAnalyzerAgent.execute_tool` (lines 351-359) composed with the
`TOOL_FUNCTIONS` table (lines 275-278).  Both registered tools return
strings, so the `json.dumps(result)` fallback at line 358 is unreachable.
A non-string `event_id` makes `"-" in event_id` / `event_id.split` raise;
a non-string `service_name` reaches the dict-lookup default, whose f-string
renders it with `str()` (modelled by `dumpsJson`). -/
def execute_tool (http : HttpRequest → HttpOutcome) (now cookie : Str)
    (tool_name : Str) (args : Json) : Except PyError Str :=
  if tool_name = str "fetch_error_log" then do
    let v ← bindOneArg (str "event_id") args
    match v with
    | .jstr e => fetch_error_log http cookie e
    | _ => .error .typeErr
  else if tool_name = str "check_server_status" then do
    let v ← bindOneArg (str "service_name") args
    match v with
    | .jstr s => .ok (check_server_status now s)
    | w => .ok (check_server_status now (dumpsJson w))
  else .ok (unknownToolText tool_name)

/-! ## Agent loop (`main.py` lines 361-450) -/

/-- One tool invocation requested by the model: correlation id, function
name and the raw JSON text of the arguments. -/
structure ToolCall where
  id : Str
  name : Str
  arguments : Str
deriving DecidableEq

/-- One assistant turn: optional text content and the requested tool calls
(`None` and the empty list are both modelled as `[]`-valued fields their
truthiness tests cannot distinguish). -/
structure AssistantMsg where
  content : Option Str
  tool_calls : List ToolCall
deriving DecidableEq

/-- Conversation turns appended to `messages`. -/
inductive Message where
  | system (content : Str)
  | user (content : Str)
  | assistant (content : Option Str) (tool_calls : List ToolCall)
  | tool (tool_call_id : Str) (content : Str)
deriving DecidableEq

/-- Handling of one requested tool call (lines 402-419):
`json.loads(tool_call.function.arguments)` (uncaught `JSONDecodeError` when
malformed), dispatch through `execute_tool`, and the tool-result turn
tagged with the call's id. -/
def processToolCall (http : HttpRequest → HttpOutcome) (now cookie : Str)
    (tc : ToolCall) : Except PyError Message :=
  match pyJsonLoads tc.arguments with
  | .error _ => .error .jsonDecodeErr
  | .ok args => do
    let result ← execute_tool http now cookie tc.name args
    .ok (.tool tc.id result)

/-- The `for tool_call in assistant_message.tool_calls` loop: sequential, in
the order returned; the first escaping exception aborts the call. -/
def processToolCalls (http : HttpRequest → HttpOutcome) (now cookie : Str) :
    List ToolCall → Except PyError (List Message)
  | [] => .ok []
  | tc :: rest => do
    let m ← processToolCall http now cookie tc
    let ms ← processToolCalls http now cookie rest
    .ok (m :: ms)

/-- The iteration loop of `analyze` (lines 377-450).  `model` stands for the
chat-completion call: the next assistant turn as a function of the
conversation so far (`TOOLS` and the model name are fixed data absorbed
into this oracle).  Fuel `0` is the fall-through after the `for` loop:
`raise RuntimeError(...)`. -/
def analyzeAux (model : List Message → AssistantMsg) (http : HttpRequest → HttpOutcome)
    (now cookie : Str) : Nat → List Message → Except PyError AnalysisReport
  | 0, _ => .error .runtimeBudget
  | n + 1, msgs =>
    let am := model msgs
    let msgs2 := msgs ++ [Message.assistant am.content am.tool_calls]
    if am.tool_calls.isEmpty then mainExtract (am.content.getD [])
    else do
      let tms ← processToolCalls http now cookie am.tool_calls
      analyzeAux model http now cookie n (msgs2 ++ tms)

/-- `LogAnalyzerAgent.analyze`: seed the conversation with the system
instruction and the user input, then loop for `max_iterations = 10`. -/
def analyze (model : List Message → AssistantMsg) (http : HttpRequest → HttpOutcome)
    (now cookie : Str) (user_input : Str) : Except PyError AnalysisReport :=
  analyzeAux model http now cookie 10
    [Message.system (str systemPromptText), Message.user user_input]

/-- No backtick occurs in the text. -/
def noBacktick (s : Str) : Bool := s.all (fun c => !(c == btick))

/-! ## Serialised reports (for the round-trip property) -/

/-- Characters that serialise into a JSON string literal unchanged and do not
interfere with fence extraction: not a quote, backslash, backtick or control
character. -/
def plainChar (c : Char) : Bool :=
  !(c == '"') && !(c == '\\') && !(c == btick) && decide (32 ≤ c.toNat)

def plainStr (s : Str) : Bool := s.all plainChar

def jsonStrLit (s : Str) : Str := '"' :: s ++ ['"']

def memberText (k v : Str) : Str := jsonStrLit k ++ ':' :: ' ' :: jsonStrLit v

/-- `"k1": "v1", "k2": "v2", ...` -/
def innerText : List (Str × Str) → Str
  | [] => []
  | [(k, v)] => memberText k v
  | (k, v) :: rest => memberText k v ++ ',' :: ' ' :: innerText rest

def reportFields (r : AnalysisReport) : List (Str × Str) :=
  [(str "event_id", r.event_id), (str "error_code", r.error_code),
   (str "error_summary", r.error_summary), (str "server_status", r.server_status),
   (str "risk_level", r.risk_level), (str "recommendation", r.recommendation)]

/-- The canonical JSON text of a report, in the shape the system prompt
requests. -/
def reportText (r : AnalysisReport) : Str :=
  lbrace :: innerText (reportFields r) ++ [rbrace]

/-! ## Spec-side candidate selection (from the words of the specification) -/

/-- Content of a fence introduced by a `json` tag, when one exists. -/
def fenceJsonBlock (t : Str) : Option Str :=
  if containsSub sepJ t then some (tBF sepA (tBF sepJ (tAF sepJ t))) else none

/-- Content of the first fenced block, when one exists. -/
def fenceAnyBlock (t : Str) : Option Str :=
  if containsSub sepA t then some (tBF sepA (tBF sepA (tAF sepA t))) else none

/-- The substring from the first opening brace to the last closing brace
inclusive, when the text contains both. -/
def braceSpan (t : Str) : Option Str :=
  if containsSub [lbrace] t && containsSub [rbrace] t then
    some ((t.drop (firstIdxOf lbrace t)).take (lastIdxOf rbrace t + 1 - firstIdxOf lbrace t))
  else none

/-- The ordered four-step fallback of the specification: labelled fence,
else any fence, else brace span, else the raw text. -/
def specCandidate (t : Str) : Str :=
  match fenceJsonBlock t with
  | some c => c
  | none =>
    match fenceAnyBlock t with
    | some c => c
    | none =>
      match braceSpan t with
      | some c => c
      | none => t

/-- The fallback chain without the brace-span step. -/
def specCandidateMain (t : Str) : Str :=
  match fenceJsonBlock t with
  | some c => c
  | none =>
    match fenceAnyBlock t with
    | some c => c
    | none => t

/-- The candidate described by the labelled-fence claim: the region between
the first `json` fence tag and the next fence delimiter after it, or the
entire remainder when no delimiter follows. -/
def claim10Candidate (t : Str) : Str := tBF sepA (tAF sepJ t)

/-- The browser extractor reaches its fallback handler: the candidate fails
to parse, or parses but fails result validation. -/
def browserFallback (t : Str) : Bool :=
  match pyJsonLoads (pyStrip (browserCandidate t)) with
  | .error _ => true
  | .ok v => !(validateLogAnalysisResult v).isOk

/-! ## String lemmas -/

theorem containsSub_iff (sep xs : Str) :
    containsSub sep xs = true ↔ ∃ a b, xs = a ++ sep ++ b := by
  induction xs with
  | nil =>
    simp only [containsSub, List.isEmpty_iff]
    constructor
    · rintro rfl; exact ⟨[], [], rfl⟩
    · rintro ⟨a, b, h⟩
      rcases List.append_eq_nil.mp h.symm with ⟨h1, h2⟩
      exact (List.append_eq_nil.mp h1).2
  | cons c rest ih =>
    simp only [containsSub, Bool.or_eq_true]
    constructor
    · rintro (hp | hc)
      · rcases List.isPrefixOf_iff_prefix.mp hp with ⟨y, hy⟩
        exact ⟨[], y, by simp [← hy]⟩
      · rcases ih.mp hc with ⟨a, b, hab⟩
        exact ⟨c :: a, b, by simp [hab]⟩
    · rintro ⟨a, b, hab⟩
      match a, hab with
      | [], hab =>
        left
        exact List.isPrefixOf_iff_prefix.mpr ⟨b, by simpa using hab.symm⟩
      | a0 :: a', hab =>
        right
        rw [List.cons_append, List.cons_append, List.cons_eq_cons] at hab
        exact ih.mpr ⟨a', b, by simpa using hab.2⟩

theorem tBF_of_no_occ (sep : Str) {xs : Str} (h : ∀ a b, xs ≠ a ++ sep ++ b) :
    tBF sep xs = xs := by
  induction xs with
  | nil => rfl
  | cons c rest ih =>
    rw [tBF]
    cases hp : sep.isPrefixOf (c :: rest) with
    | true =>
      exfalso
      rcases List.isPrefixOf_iff_prefix.mp hp with ⟨y, hy⟩
      exact h [] y (by simp [← hy])
    | false =>
      simp only [Bool.false_eq_true, if_false]
      rw [ih (fun a b hab => h (c :: a) b (by simp [hab]))]

theorem tBF_append (sep a b : Str)
    (hmin : ∀ x y, a ++ sep ++ b = x ++ sep ++ y → a.length ≤ x.length) :
    tBF sep (a ++ sep ++ b) = a := by
  induction a with
  | nil =>
    simp only [List.nil_append]
    have hp : sep.isPrefixOf (sep ++ b) = true :=
      List.isPrefixOf_iff_prefix.mpr ⟨b, rfl⟩
    cases hsb : sep ++ b with
    | nil => rfl
    | cons c rest =>
      rw [hsb] at hp
      rw [tBF, hp]
      simp
  | cons c a' ih =>
    have heq : (c :: a') ++ sep ++ b = c :: (a' ++ sep ++ b) := by simp
    rw [heq, tBF]
    cases hp : sep.isPrefixOf (c :: (a' ++ sep ++ b)) with
    | true =>
      exfalso
      rcases List.isPrefixOf_iff_prefix.mp hp with ⟨y, hy⟩
      have := hmin [] y (by simpa using hy.symm)
      simp at this
    | false =>
      simp only [Bool.false_eq_true, if_false, List.cons_eq_cons, true_and]
      exact ih (fun x y hxy => by
        have := hmin (c :: x) y (by simp [hxy])
        simpa using this)

theorem tAF_append (sep a b : Str) (hsep : sep ≠ [])
    (hmin : ∀ x y, a ++ sep ++ b = x ++ sep ++ y → a.length ≤ x.length) :
    tAF sep (a ++ sep ++ b) = b := by
  induction a with
  | nil =>
    simp only [List.nil_append]
    have hp : sep.isPrefixOf (sep ++ b) = true :=
      List.isPrefixOf_iff_prefix.mpr ⟨b, rfl⟩
    match sep, hsep, hp with
    | s0 :: tl, _, hp =>
      have hshape : (s0 :: tl) ++ b = s0 :: (tl ++ b) := by simp
      rw [hshape] at hp ⊢
      rw [tAF, hp]
      simp only [if_true]
      have : s0 :: (tl ++ b) = (s0 :: tl) ++ b := by simp
      rw [this]
      simp [List.drop_left (s0 :: tl) b]
  | cons c a' ih =>
    have heq : (c :: a') ++ sep ++ b = c :: (a' ++ sep ++ b) := by simp
    rw [heq, tAF]
    cases hp : sep.isPrefixOf (c :: (a' ++ sep ++ b)) with
    | true =>
      exfalso
      rcases List.isPrefixOf_iff_prefix.mp hp with ⟨y, hy⟩
      have := hmin [] y (by simpa using hy.symm)
      simp at this
    | false =>
      simp only [Bool.false_eq_true, if_false]
      exact ih (fun x y hxy => by
        have := hmin (c :: x) y (by simp [hxy])
        simpa using this)

theorem noBt_not_mem {s : Str} (h : noBacktick s = true) : btick ∉ s := by
  intro hm
  have := (List.all_eq_true.mp h) btick hm
  simp at this

theorem noBt_min {body : Str} (h : noBacktick body = true) :
    ∀ {x u v : Str}, body ++ btick :: u = x ++ btick :: v → body.length ≤ x.length := by
  induction body with
  | nil => intro x u v _; simp
  | cons c body' ih =>
    intro x u v heq
    have hcb : c ≠ btick := by
      have := List.all_eq_true.mp h c (by simp)
      simpa using this
    have h' : noBacktick body' = true := by
      simp only [noBacktick, List.all_cons, Bool.and_eq_true] at h
      exact h.2
    match x, heq with
    | [], heq =>
      exfalso
      rw [List.cons_append, List.nil_append, List.cons_eq_cons] at heq
      exact hcb heq.1
    | d :: x', heq =>
      rw [List.cons_append, List.cons_append, List.cons_eq_cons] at heq
      simpa using Nat.succ_le_succ (ih h' heq.2)

theorem noBt_min_sep {a b x y sep tl : Str} (ha : noBacktick a = true) (hs : sep = btick :: tl)
    (heq : a ++ sep ++ b = x ++ sep ++ y) : a.length ≤ x.length := by
  subst hs
  have h2 : a ++ btick :: (tl ++ b) = x ++ btick :: (tl ++ y) := by
    simpa [List.append_assoc] using heq
  exact noBt_min ha h2

/-- A run of three backticks bordered by backtick-free text on both sides
matches a three-backtick pattern in only one position. -/
theorem btRun_unique {body post : Str} (hb : noBacktick body = true)
    (hp : noBacktick post = true) :
    ∀ {a c : Str},
      body ++ btick :: btick :: btick :: post = a ++ btick :: btick :: btick :: c →
      a = body := by
  induction body with
  | nil =>
    intro a c heq
    match a, heq with
    | [], _ => rfl
    | x :: a', heq =>
      exfalso
      rw [List.nil_append, List.cons_append, List.cons_eq_cons] at heq
      obtain ⟨hx, heq⟩ := heq
      match a', heq with
      | [], heq =>
        rw [List.nil_append, List.cons_eq_cons] at heq
        obtain ⟨_, heq⟩ := heq
        rw [List.cons_eq_cons] at heq
        obtain ⟨_, heq⟩ := heq
        exact noBt_not_mem hp (heq ▸ List.mem_cons_self _ _)
      | y :: a'', heq =>
        rw [List.cons_append, List.cons_eq_cons] at heq
        obtain ⟨hy, heq⟩ := heq
        match a'', heq with
        | [], heq =>
          rw [List.nil_append, List.cons_eq_cons] at heq
          obtain ⟨_, heq⟩ := heq
          exact noBt_not_mem hp (heq ▸ List.mem_cons_self _ _)
        | z :: a''', heq =>
          rw [List.cons_append, List.cons_eq_cons] at heq
          obtain ⟨hz, heq⟩ := heq
          exact noBt_not_mem hp (heq ▸ List.mem_append_right _ (List.mem_cons_self _ _))
  | cons cb body' ih =>
    intro a c heq
    have hcb : cb ≠ btick := by
      have := List.all_eq_true.mp hb cb (by simp)
      simpa using this
    have hb' : noBacktick body' = true := by
      simp only [noBacktick, List.all_cons, Bool.and_eq_true] at hb
      exact hb.2
    match a, heq with
    | [], heq =>
      exfalso
      rw [List.cons_append, List.nil_append, List.cons_eq_cons] at heq
      exact hcb heq.1
    | d :: a', heq =>
      rw [List.cons_append, List.cons_append, List.cons_eq_cons] at heq
      obtain ⟨hd, heq⟩ := heq
      rw [ih hb' heq, hd]

theorem sepJ_shape : sepJ = btick :: btick :: btick :: str "json" := by decide

theorem sepA_shape : sepA = btick :: btick :: btick :: ([] : Str) := by decide

theorem sepJ_cons : sepJ = btick :: (btick :: btick :: str "json") := sepJ_shape

theorem sepA_cons : sepA = btick :: (btick :: btick :: ([] : Str)) := sepA_shape

/-- Backtick-free prefix: the labelled-fence branch of the main extractor
keeps everything after the first fence tag, truncated at the next fence tag
and then at the first fence delimiter. -/
theorem mainCandidate_fence (pre r : Str) (hpre : noBacktick pre = true) :
    mainCandidate (pre ++ sepJ ++ r) = tBF sepA (tBF sepJ r) := by
  have hcon : containsSub sepJ (pre ++ sepJ ++ r) = true :=
    (containsSub_iff _ _).mpr ⟨pre, r, rfl⟩
  have htaf : tAF sepJ (pre ++ sepJ ++ r) = r :=
    tAF_append sepJ pre r (by decide)
      (fun x y hxy => noBt_min_sep hpre sepJ_cons hxy)
  unfold mainCandidate
  rw [hcon, if_pos rfl, htaf]

/-- With a backtick-free body and trailing text, the truncations after the
fence tag recover exactly the body. -/
theorem fence_body (body post : Str) (hb : noBacktick body = true)
    (hp : noBacktick post = true) :
    tBF sepA (tBF sepJ (body ++ sepA ++ post)) = body := by
  by_cases hc : containsSub sepJ (body ++ sepA ++ post) = true
  · obtain ⟨a, b, hab⟩ := (containsSub_iff _ _).mp hc
    have hnorm : body ++ btick :: btick :: btick :: post =
        a ++ btick :: btick :: btick :: (str "json" ++ b) := by
      simpa [sepA_shape, sepJ_shape, List.append_assoc] using hab
    have ha : a = body := btRun_unique hb hp hnorm
    have hab2 : body ++ sepA ++ post = body ++ sepJ ++ b := by rw [ha] at hab; exact hab
    have h1 : tBF sepJ (body ++ sepA ++ post) = body := by
      rw [hab2]
      exact tBF_append sepJ body b (fun x y hxy => noBt_min_sep hb sepJ_cons hxy)
    rw [h1]
    exact tBF_of_no_occ sepA (fun x y hxy =>
      noBt_not_mem hb (by
        rw [hxy, sepA_shape]
        simp))
  · have h1 : tBF sepJ (body ++ sepA ++ post) = body ++ sepA ++ post :=
      tBF_of_no_occ sepJ (fun a b hab => hc ((containsSub_iff _ _).mpr ⟨a, b, hab⟩))
    rw [h1]
    exact tBF_append sepA body post (fun x y hxy => noBt_min_sep hb sepA_cons hxy)

theorem parseStrChars_quote (rest : Str) : parseStrChars ('"' :: rest) = .ok ([], rest) := by
  rw [parseStrChars.eq_def]; simp

theorem parseStrChars_plain_step (c : Char) (rest : Str) (h1 : c ≠ '"') (h2 : c ≠ '\\')
    (h4 : 32 ≤ c.toNat) :
    parseStrChars (c :: rest) = consFst c (parseStrChars rest) := by
  rw [parseStrChars.eq_def]
  simp only [if_neg h1, if_neg h2, if_neg (by omega : ¬ c.toNat < 32)]

theorem parseStrChars_plain {s : Str} (hs : plainStr s = true) :
    ∀ rest, parseStrChars (s ++ '"' :: rest) = .ok (s, rest) := by
  induction s with
  | nil => intro rest; rw [List.nil_append, parseStrChars_quote]
  | cons c s' ih =>
    intro rest
    have hc : plainChar c = true := by
      simp only [plainStr, List.all_cons, Bool.and_eq_true] at hs; exact hs.1
    have hs' : plainStr s' = true := by
      simp only [plainStr, List.all_cons, Bool.and_eq_true] at hs; exact hs.2
    simp only [plainChar, Bool.and_eq_true, Bool.not_eq_true', beq_eq_false_iff_ne,
      decide_eq_true_eq] at hc
    obtain ⟨⟨⟨h1, h2⟩, _⟩, h4⟩ := hc
    rw [List.cons_append, parseStrChars_plain_step c _ h1 h2 h4, ih hs' rest, consFst]

theorem skipWs_not {c : Char} (h : wsChar c = false) (x : Str) : skipWs (c :: x) = c :: x := by
  rw [skipWs, h]; simp

theorem skipWs_ws {c : Char} (h : wsChar c = true) (x : Str) : skipWs (c :: x) = skipWs x := by
  rw [skipWs, h]; simp

theorem ok_bind {ε α β : Type} (a : α) (f : α → Except ε β) :
    (Except.ok a >>= f : Except ε β) = f a := rfl

theorem parseMembers_member (g : Nat) (k v tail : Str) (acc : List (Str × Json))
    (hk : plainStr k = true) (hv : plainStr v = true) :
    parseMembers (g + 4) (memberText k v ++ tail) acc =
      (match skipWs tail with
      | ',' :: r5 => parseMembers (g + 2) r5 (insertKV acc k (.jstr v))
      | d :: r5 => if d = rbrace then .ok (.jobj (insertKV acc k (.jstr v)), r5) else .error ()
      | [] => .error ()) := by
  have hshape : memberText k v ++ tail =
      '"' :: (k ++ '"' :: ':' :: ' ' :: '"' :: (v ++ '"' :: tail)) := by
    simp [memberText, jsonStrLit]
  rw [hshape]
  show parseMembers (g + 3 + 1) _ _ = _
  rw [parseMembers, skipWs_not (by decide)]
  show parseMembersAt (g + 2 + 1) _ _ = _
  rw [parseMembersAt, parseStrChars_plain hk, ok_bind]
  simp only [skipWs_not (by decide : wsChar ':' = false)]
  show (parseValue (g + 1 + 1) _ >>= _) = _
  rw [parseValue, skipWs_ws (by decide), skipWs_not (by decide)]
  show (parseValueAt (g + 0 + 1) _ >>= _) = _
  rw [parseValueAt, if_pos rfl, parseStrChars_plain hv]
  simp only [Except.map, ok_bind]

theorem parseMembers_space (h : Nat) (x : Str) (acc : List (Str × Json)) :
    parseMembers (h + 1) (' ' :: x) acc = parseMembers (h + 1) x acc := by
  rw [parseMembers, parseMembers, skipWs_ws (by decide)]

theorem parseMembers_inner :
    ∀ (kvs : List (Str × Str)), kvs ≠ [] →
      (∀ kv ∈ kvs, plainStr kv.1 = true ∧ plainStr kv.2 = true) →
      ∀ (f : Nat) (acc : List (Str × Json)) (rest : Str),
      parseMembers (2 * kvs.length + f + 2) (innerText kvs ++ rbrace :: rest) acc =
        .ok (.jobj (kvs.foldl (fun m kv => insertKV m kv.1 (.jstr kv.2)) acc), rest) := by
  intro kvs
  induction kvs with
  | nil => intro h; exact absurd rfl h
  | cons kv tl ih =>
    obtain ⟨k, v⟩ := kv
    intro _ hplain f acc rest
    have hk : plainStr k = true := (hplain (k, v) (by simp)).1
    have hv : plainStr v = true := (hplain (k, v) (by simp)).2
    cases tl with
    | nil =>
      have hlen : 2 * ([((k, v))] : List (Str × Str)).length + f + 2 = f + 4 := by
        simp; omega
      rw [hlen]
      have hin : innerText [(k, v)] ++ rbrace :: rest = memberText k v ++ rbrace :: rest := by
        simp [innerText]
      rw [hin, parseMembers_member f k v _ acc hk hv, skipWs_not (by decide)]
      rfl
    | cons kv2 tl2 =>
      have hlen : 2 * (((k, v) :: kv2 :: tl2) : List (Str × Str)).length + f + 2 =
          (2 * (kv2 :: tl2).length + f) + 4 := by
        simp [List.length_cons]; omega
      rw [hlen]
      have hin : innerText ((k, v) :: kv2 :: tl2) ++ rbrace :: rest =
          memberText k v ++ (',' :: ' ' :: (innerText (kv2 :: tl2) ++ rbrace :: rest)) := by
        rw [innerText] <;> simp [List.append_assoc]
      rw [hin, parseMembers_member _ k v _ acc hk hv, skipWs_not (by decide)]
      show parseMembers (2 * (kv2 :: tl2).length + f + 1 + 1)
          (' ' :: (innerText (kv2 :: tl2) ++ rbrace :: rest)) (insertKV acc k (.jstr v)) = _
      rw [parseMembers_space]
      rw [ih (by simp) (fun kv hm => hplain kv (by simp [hm])) f _ rest]
      rfl


theorem innerText_head : ∀ (kvs : List (Str × Str)), kvs ≠ [] →
    ∃ z, innerText kvs = '"' :: z := by
  intro kvs h
  match kvs with
  | [(k, v)] =>
    exact ⟨k ++ '"' :: ':' :: ' ' :: '"' :: (v ++ ['"']),
      by simp [innerText, memberText, jsonStrLit]⟩
  | (k, v) :: kv2 :: tl2 =>
    refine ⟨k ++ '"' :: ':' :: ' ' :: '"' :: (v ++ '"' :: ',' :: ' ' :: innerText (kv2 :: tl2)), ?_⟩
    rw [innerText] <;> simp [memberText, jsonStrLit]

theorem parseValue_objText (kvs : List (Str × Str)) (hne : kvs ≠ [])
    (hplain : ∀ kv ∈ kvs, plainStr kv.1 = true ∧ plainStr kv.2 = true) (f : Nat) :
    parseValue (2 * kvs.length + f + 5) (lbrace :: innerText kvs ++ [rbrace]) =
      .ok (.jobj (kvs.foldl (fun m kv => insertKV m kv.1 (.jstr kv.2)) []), []) := by
  obtain ⟨z, hz⟩ := innerText_head kvs hne
  show parseValue (2 * kvs.length + f + 4 + 1) _ = _
  rw [parseValue, List.cons_append, skipWs_not (by decide)]
  show parseValueAt (2 * kvs.length + f + 3 + 1) _ = _
  rw [parseValueAt, if_neg (by decide : ¬ lbrace = '"'), if_pos rfl]
  rw [hz, List.cons_append, skipWs_not (by decide)]
  show parseBraceAt (2 * kvs.length + f + 2 + 1) _ _ = _
  rw [parseBraceAt, if_neg (by decide : ¬ '"' = rbrace)]
  rw [← List.cons_append, ← hz]
  have : innerText kvs ++ [rbrace] = innerText kvs ++ rbrace :: ([] : Str) := rfl
  rw [this, parseMembers_inner kvs hne hplain f [] []]

theorem insertKV_fresh (acc : List (Str × Json)) (k : Str) (v : Json)
    (h : ∀ kv ∈ acc, kv.1 ≠ k) : insertKV acc k v = acc ++ [(k, v)] := by
  unfold insertKV
  cases hany : acc.any (fun kv => decide (kv.1 = k)) with
  | true =>
    exfalso
    obtain ⟨kv, hm, pe⟩ := List.any_eq_true.mp hany
    exact h kv hm (by simpa using pe)
  | false => simp [hany]

theorem foldl_insertKV :
    ∀ (fields : List (Str × Str)) (acc : List (Str × Json)),
      (∀ kv ∈ fields, ∀ kv2 ∈ acc, kv2.1 ≠ kv.1) →
      fields.Pairwise (fun a b => a.1 ≠ b.1) →
      fields.foldl (fun m kv => insertKV m kv.1 (.jstr kv.2)) acc =
        acc ++ fields.map (fun kv => (kv.1, Json.jstr kv.2)) := by
  intro fields
  induction fields with
  | nil => intro acc _ _; simp
  | cons kv tl ih =>
    intro acc hfresh hpw
    rw [List.foldl_cons, insertKV_fresh _ _ _ (fun kv2 hm => hfresh kv (by simp) kv2 hm)]
    rw [List.pairwise_cons] at hpw
    rw [ih (acc ++ [(kv.1, Json.jstr kv.2)]) (by
      intro kv3 hm3 kv2 hm2
      rcases List.mem_append.mp hm2 with h2 | h2
      · exact hfresh kv3 (by simp [hm3]) kv2 h2
      · have he : kv2 = (kv.1, Json.jstr kv.2) := by simpa using h2
        rw [he]
        exact hpw.1 kv3 hm3) hpw.2]
    simp


theorem reportFields_pairwise (r : AnalysisReport) :
    (reportFields r).Pairwise (fun a b => a.1 ≠ b.1) := by
  unfold reportFields
  refine List.Pairwise.cons ?_ (List.Pairwise.cons ?_ (List.Pairwise.cons ?_
    (List.Pairwise.cons ?_ (List.Pairwise.cons ?_ (List.Pairwise.cons ?_
      List.Pairwise.nil))))) <;>
    exact fun b hb => by
      fin_cases hb <;> (dsimp only; decide)

theorem pyJsonLoads_reportText (r : AnalysisReport)
    (hplain : ∀ kv ∈ reportFields r, plainStr kv.1 = true ∧ plainStr kv.2 = true) :
    pyJsonLoads (reportText r) =
      .ok (.jobj [(str "event_id", .jstr r.event_id), (str "error_code", .jstr r.error_code),
        (str "error_summary", .jstr r.error_summary),
        (str "server_status", .jstr r.server_status),
        (str "risk_level", .jstr r.risk_level),
        (str "recommendation", .jstr r.recommendation)]) := by
  have hne : reportFields r ≠ [] := by simp [reportFields]
  obtain ⟨z, hz⟩ := innerText_head _ hne
  have hlen : (reportText r).length = z.length + 3 := by
    simp [reportText, hz]
  have htext : reportText r = lbrace :: innerText (reportFields r) ++ [rbrace] := rfl
  have hmain := parseValue_objText (reportFields r) hne hplain
    (4 * (reportText r).length - 9)
  rw [show 2 * (reportFields r).length + (4 * (reportText r).length - 9) + 5 =
      4 * (reportText r).length + 8 by
    simp only [reportFields, List.length_cons, List.length_nil]
    omega] at hmain
  rw [← htext] at hmain
  rw [foldl_insertKV (reportFields r) [] (by simp) (reportFields_pairwise r)] at hmain
  unfold pyJsonLoads
  rw [hmain]
  simp [reportFields, skipWs]


theorem pyStrip_body (mid : Str) :
    pyStrip ('\n' :: (lbrace :: mid ++ [rbrace]) ++ ['\n']) = lbrace :: mid ++ [rbrace] := by
  have e1 : pyWs '\n' = true := by decide
  have e2 : pyWs lbrace = false := by decide
  have e3 : pyWs rbrace = false := by decide
  simp [pyStrip, List.dropWhile_cons, e1, e2, e3, List.reverse_append, List.append_assoc]

theorem plain_noBt {s : Str} (h : plainStr s = true) : noBacktick s = true := by
  simp only [plainStr, List.all_eq_true] at h
  simp only [noBacktick, List.all_eq_true]
  intro c hc
  have h2 := h c hc
  simp only [plainChar, Bool.and_eq_true] at h2
  exact h2.1.2

theorem memberText_noBt {k v : Str} (hk : plainStr k = true) (hv : plainStr v = true) :
    noBacktick (memberText k v) = true := by
  have hk' := plain_noBt hk
  have hv' := plain_noBt hv
  simp only [noBacktick, List.all_eq_true] at hk' hv' ⊢
  intro c hc
  simp only [memberText, jsonStrLit, List.mem_append, List.mem_cons,
    List.not_mem_nil, or_false] at hc
  have h5 : c ∈ k ∨ c ∈ v ∨ c = '"' ∨ c = ':' ∨ c = ' ' := by tauto
  rcases h5 with h | h | rfl | rfl | rfl
  · exact hk' c h
  · exact hv' c h
  · decide
  · decide
  · decide

theorem innerText_noBt : ∀ (kvs : List (Str × Str)),
    (∀ kv ∈ kvs, plainStr kv.1 = true ∧ plainStr kv.2 = true) →
    noBacktick (innerText kvs) = true := by
  intro kvs
  induction kvs with
  | nil => intro _; rfl
  | cons kv tl ih =>
    obtain ⟨k, v⟩ := kv
    intro h
    have hm := memberText_noBt (h (k, v) (by simp)).1 (h (k, v) (by simp)).2
    simp only [noBacktick, List.all_eq_true] at hm
    cases tl with
    | nil =>
      simp only [noBacktick, List.all_eq_true, innerText]
      exact hm
    | cons kv2 tl2 =>
      have ht := ih (fun kv hmem => h kv (by simp [hmem]))
      simp only [noBacktick, List.all_eq_true] at ht
      rw [innerText]
      · simp only [noBacktick, List.all_eq_true]
        intro c hc
        simp only [List.mem_append, List.mem_cons] at hc
        have h4 : c ∈ memberText k v ∨ c ∈ innerText (kv2 :: tl2) ∨ c = ',' ∨ c = ' ' := by
          tauto
        rcases h4 with h2 | h2 | rfl | rfl
        · exact hm c h2
        · exact ht c h2
        · decide
        · decide
      · simp

theorem reportText_noBt (r : AnalysisReport)
    (hplain : ∀ kv ∈ reportFields r, plainStr kv.1 = true ∧ plainStr kv.2 = true) :
    noBacktick (reportText r) = true := by
  have hi := innerText_noBt (reportFields r) hplain
  simp only [noBacktick, List.all_eq_true] at hi ⊢
  intro c hc
  simp only [reportText, List.mem_cons, List.mem_append, List.mem_singleton] at hc
  have h4 : c ∈ innerText (reportFields r) ∨ c = lbrace ∨ c = rbrace := by tauto
  rcases h4 with h2 | rfl | rfl
  · exact hi c h2
  · decide
  · decide

/-- Claim C9 (confirmed): a well-formed JSON object matching the
AnalysisReport schema, embedded in a `json`-labelled fenced block of the
final-answer text, is recovered byte-for-byte into the report fields.  The
object is the canonical serialisation `reportText`; the field values and the
surrounding text are arbitrary up to fence hygiene (no backticks outside the
fence, field values free of quotes, backslashes, backticks and control
characters). -/
theorem c9_fenced_roundtrip (r : AnalysisReport) (pre post : Str)
    (h1 : plainStr r.event_id = true) (h2 : plainStr r.error_code = true)
    (h3 : plainStr r.error_summary = true) (h4 : plainStr r.server_status = true)
    (h5 : plainStr r.risk_level = true) (h6 : plainStr r.recommendation = true)
    (hpre : noBacktick pre = true) (hpost : noBacktick post = true) :
    mainExtract (pre ++ sepJ ++ ('\n' :: reportText r ++ ['\n']) ++ sepA ++ post) = .ok r := by
  have hplain : ∀ kv ∈ reportFields r, plainStr kv.1 = true ∧ plainStr kv.2 = true := by
    intro kv hm
    simp only [reportFields, List.mem_cons, List.not_mem_nil, or_false] at hm
    rcases hm with rfl | rfl | rfl | rfl | rfl | rfl
    exacts [⟨show plainStr (str "event_id") = true from by decide, h1⟩,
      ⟨show plainStr (str "error_code") = true from by decide, h2⟩,
      ⟨show plainStr (str "error_summary") = true from by decide, h3⟩,
      ⟨show plainStr (str "server_status") = true from by decide, h4⟩,
      ⟨show plainStr (str "risk_level") = true from by decide, h5⟩,
      ⟨show plainStr (str "recommendation") = true from by decide, h6⟩]
  have hbody : noBacktick ('\n' :: reportText r ++ ['\n']) = true := by
    have hr := reportText_noBt r hplain
    simp only [noBacktick, List.all_eq_true] at hr ⊢
    intro c hc
    simp only [List.mem_cons, List.mem_append, List.mem_singleton] at hc
    have h4' : c ∈ reportText r ∨ c = '\n' := by tauto
    rcases h4' with h2' | rfl
    · exact hr c h2'
    · decide
  have hassoc : pre ++ sepJ ++ ('\n' :: reportText r ++ ['\n']) ++ sepA ++ post =
      pre ++ sepJ ++ (('\n' :: reportText r ++ ['\n']) ++ sepA ++ post) := by
    simp [List.append_assoc]
  rw [hassoc]
  unfold mainExtract
  rw [mainCandidate_fence pre _ hpre, fence_body _ post hbody hpost]
  have hstrip : pyStrip ('\n' :: reportText r ++ ['\n']) = reportText r :=
    pyStrip_body (innerText (reportFields r))
  rw [hstrip, pyJsonLoads_reportText r hplain]
  rfl


theorem err_bind {ε α β : Type} (e : ε) (f : α → Except ε β) :
    (Except.error e >>= f : Except ε β) = .error e := rfl

theorem isOk_exists {ε α : Type} {e : Except ε α} (h : e.isOk = true) : ∃ a, e = .ok a := by
  cases e with
  | ok a => exact ⟨a, rfl⟩
  | error _ => exact Bool.noConfusion h

theorem processToolCall_ok_shape {http now cookie tc m}
    (h : processToolCall http now cookie tc = .ok m) : ∃ t, m = Message.tool tc.id t := by
  unfold processToolCall at h
  split at h
  · exact absurd h (by simp)
  · cases hexe : execute_tool http now cookie tc.name _ with
    | error e => rw [hexe, err_bind] at h; exact absurd h (by simp)
    | ok t =>
      rw [hexe, ok_bind] at h
      exact ⟨t, by injection h with h2; exact h2.symm⟩

theorem processToolCalls_all_ok {http now cookie} :
    ∀ (calls : List ToolCall),
      (∀ tc ∈ calls, (processToolCall http now cookie tc).isOk = true) →
      ∃ ms, processToolCalls http now cookie calls = .ok ms ∧
        List.Forall₂ (fun tc m => processToolCall http now cookie tc = .ok m ∧
          ∃ t, m = Message.tool tc.id t) calls ms := by
  intro calls
  induction calls with
  | nil => intro _; exact ⟨[], rfl, List.Forall₂.nil⟩
  | cons tc rest ih =>
    intro h
    obtain ⟨m, hm⟩ := isOk_exists (h tc (by simp))
    obtain ⟨ms, hms, hfa⟩ := ih (fun tc2 h2 => h tc2 (by simp [h2]))
    refine ⟨m :: ms, ?_, List.Forall₂.cons ⟨hm, processToolCall_ok_shape hm⟩ hfa⟩
    rw [processToolCalls, hm, ok_bind, hms, ok_bind]

theorem analyzeAux_final (model : List Message → AssistantMsg) (http : HttpRequest → HttpOutcome)
    (now cookie : Str) (n : Nat) (msgs : List Message)
    (h : (model msgs).tool_calls = []) :
    analyzeAux model http now cookie (n + 1) msgs =
      mainExtract ((model msgs).content.getD []) := by
  rw [analyzeAux]
  simp [h]

theorem analyzeAux_tools (model : List Message → AssistantMsg) (http : HttpRequest → HttpOutcome)
    (now cookie : Str) (n : Nat) (msgs : List Message) (ms : List Message)
    (hne : (model msgs).tool_calls ≠ [])
    (hms : processToolCalls http now cookie (model msgs).tool_calls = .ok ms) :
    analyzeAux model http now cookie (n + 1) msgs =
      analyzeAux model http now cookie n
        (msgs ++ [Message.assistant (model msgs).content (model msgs).tool_calls] ++ ms) := by
  rw [analyzeAux]
  have he : (model msgs).tool_calls.isEmpty = false := by
    cases hc : (model msgs).tool_calls with
    | nil => exact absurd hc hne
    | cons a b => simp [hc]
  simp only [he, Bool.false_eq_true, if_false, hms, ok_bind]

theorem analyzeAux_budget (model : List Message → AssistantMsg) (http : HttpRequest → HttpOutcome)
    (now cookie : Str)
    (h1 : ∀ msgs, (model msgs).tool_calls ≠ [])
    (h2 : ∀ msgs, ∀ tc ∈ (model msgs).tool_calls,
      (processToolCall http now cookie tc).isOk = true) :
    ∀ (n : Nat) (msgs : List Message),
      analyzeAux model http now cookie n msgs = .error .runtimeBudget := by
  intro n
  induction n with
  | zero => intro msgs; rfl
  | succ n ih =>
    intro msgs
    obtain ⟨ms, hms, _⟩ := processToolCalls_all_ok ((model msgs).tool_calls) (h2 msgs)
    rw [analyzeAux_tools model http now cookie n msgs ms (h1 msgs) hms]
    exact ih _

theorem analyzeAux_ok_or_budget (model : List Message → AssistantMsg)
    (http : HttpRequest → HttpOutcome) (now cookie : Str)
    (h1 : ∀ msgs, ∀ tc ∈ (model msgs).tool_calls,
      (processToolCall http now cookie tc).isOk = true)
    (h2 : ∀ msgs, (model msgs).tool_calls = [] →
      (mainExtract ((model msgs).content.getD [])).isOk = true) :
    ∀ (n : Nat) (msgs : List Message),
      (∃ r, analyzeAux model http now cookie n msgs = .ok r) ∨
        analyzeAux model http now cookie n msgs = .error .runtimeBudget := by
  intro n
  induction n with
  | zero => intro msgs; exact Or.inr rfl
  | succ n ih =>
    intro msgs
    cases hc : (model msgs).tool_calls with
    | nil =>
      rw [analyzeAux_final model http now cookie n msgs hc]
      exact Or.inl (isOk_exists (h2 msgs hc))
    | cons tc tl =>
      obtain ⟨ms, hms, _⟩ := processToolCalls_all_ok ((model msgs).tool_calls) (h1 msgs)
      rw [analyzeAux_tools model http now cookie n msgs ms (by rw [hc]; simp) hms]
      exact ih _


theorem containsSub_single_iff (c : Char) (xs : Str) : containsSub [c] xs = true ↔ c ∈ xs := by
  rw [containsSub_iff]
  constructor
  · rintro ⟨a, b, rfl⟩; simp
  · intro h
    obtain ⟨s, t, rfl⟩ := List.append_of_mem h
    exact ⟨s, t, by simp⟩

theorem tBF_single (c : Char) : ∀ xs : Str, tBF [c] xs = xs.takeWhile (fun x => !(x == c)) := by
  intro xs
  induction xs with
  | nil => rfl
  | cons d rest ih =>
    rw [tBF, List.takeWhile_cons]
    by_cases h : c = d
    · subst h
      have hp : [c].isPrefixOf (c :: rest) = true := by simp [List.isPrefixOf]
      rw [hp]
      simp
    · have hp : [c].isPrefixOf (d :: rest) = false := by
        simp only [List.isPrefixOf, Bool.and_eq_true, List.isPrefixOf]
        simp [beq_eq_false_iff_ne, h]
      rw [hp]
      have hd : (!(d == c)) = true := by
        simp [beq_eq_false_iff_ne]
        exact fun he => h he.symm
      simp [hd, ih]


theorem sepJ_split : sepJ = sepA ++ str "json" := by decide

/-! ## Claims -/

/-- Claim C6 (confirmed): for every identifier containing at least one
separator character `-`, the derived platform tag equals the substring
before the first separator; for every identifier without a separator it is
the fixed default constant `"AMS"`.  (`fetch_error_log`, line 67.) -/
theorem c6_platform_tag :
    (∀ e : Str, '-' ∈ e → platName e = e.takeWhile (fun c => !(c == '-'))) ∧
    (∀ e : Str, '-' ∉ e → platName e = str "AMS") := by
  constructor
  · intro e h
    have hc : containsSub (str "-") e = true := (containsSub_single_iff '-' e).mpr h
    unfold platName
    simp only [hc, if_true]
    exact tBF_single '-' e
  · intro e h
    have hc : containsSub (str "-") e = false := by
      cases hcc : containsSub (str "-") e
      · rfl
      · exact absurd ((containsSub_single_iff '-' e).mp hcc) h
    unfold platName
    simp [hc]

/-- Witness for C6 at concrete identifiers. -/
theorem c6_platform_tag_witness :
    ('-' ∈ str "DJC-CF-1211212348") ∧
    platName (str "DJC-CF-1211212348") =
      (str "DJC-CF-1211212348").takeWhile (fun c => !(c == '-')) ∧
    ('-' ∉ str "EVT2025") ∧ platName (str "EVT2025") = str "AMS" :=
  ⟨by decide, c6_platform_tag.1 (str "DJC-CF-1211212348") (by decide), by decide,
    c6_platform_tag.2 (str "EVT2025") (by decide)⟩

/-- Claim C3 (corrected): the browser extractor selects its candidate by
exactly the four-step fallback of the specification (labelled fence, first
fence, brace span, raw text); the main extractor omits the brace-span step,
falling from the fence steps directly to the raw text. -/
theorem c3_candidate_fallback :
    (∀ t, browserCandidate t = specCandidate t) ∧
    (∀ t, mainCandidate t = specCandidateMain t) := by
  constructor
  · intro t
    unfold browserCandidate specCandidate fenceJsonBlock fenceAnyBlock braceSpan
    by_cases h1 : containsSub sepJ t = true
    · simp [h1]
    · rw [Bool.not_eq_true] at h1
      by_cases h2 : containsSub sepA t = true
      · simp [h1, h2]
      · rw [Bool.not_eq_true] at h2
        by_cases h3 : (containsSub [lbrace] t && containsSub [rbrace] t) = true
        · simp [h1, h2, h3]
        · rw [Bool.not_eq_true] at h3
          simp [h1, h2, h3]
  · intro t
    unfold mainCandidate specCandidateMain fenceJsonBlock fenceAnyBlock
    by_cases h1 : containsSub sepJ t = true
    · simp [h1]
    · rw [Bool.not_eq_true] at h1
      by_cases h2 : containsSub sepA t = true
      · simp [h1, h2]
      · rw [Bool.not_eq_true] at h2
        simp [h1, h2]

/-- Counterexample for C3: on text with braces but no fence the main
extractor keeps the raw text where the specified fallback selects the brace
span. -/
theorem c3_counterexample :
    mainCandidate (str "a\x7b\"x\": 1\x7db") = str "a\x7b\"x\": 1\x7db" ∧
    specCandidate (str "a\x7b\"x\": 1\x7db") = str "\x7b\"x\": 1\x7d" ∧
    mainCandidate (str "a\x7b\"x\": 1\x7db") ≠ specCandidate (str "a\x7b\"x\": 1\x7db") :=
  ⟨by decide, by decide, by decide⟩

/-- Claim C10 (corrected): for a text formed of a backtick-free prefix, the
`json` fence tag and a remainder, the selected candidate is the remainder
truncated at the next `json` tag and then at the first fence delimiter; in
particular, when the remainder contains no fence delimiter at all, the
candidate is the entire remainder (no closing fence required), and any text
after the truncation point is ignored. -/
theorem c10_labeled_fence (pre r : Str) (hpre : noBacktick pre = true) :
    mainCandidate (pre ++ sepJ ++ r) = tBF sepA (tBF sepJ r) ∧
    (containsSub sepA r = false → mainCandidate (pre ++ sepJ ++ r) = r) := by
  refine ⟨mainCandidate_fence pre r hpre, fun hno => ?_⟩
  rw [mainCandidate_fence pre r hpre]
  have hnoJ : tBF sepJ r = r := by
    refine tBF_of_no_occ sepJ (fun a b hab => ?_)
    have hA : containsSub sepA r = true :=
      (containsSub_iff _ _).mpr ⟨a, str "json" ++ b, by rw [hab, sepJ_split]; simp⟩
    rw [hno] at hA
    exact Bool.noConfusion hA
  rw [hnoJ]
  refine tBF_of_no_occ sepA (fun a b hab => ?_)
  have hA : containsSub sepA r = true := (containsSub_iff _ _).mpr ⟨a, b, hab⟩
  rw [hno] at hA
  exact Bool.noConfusion hA

/-- Witness for C10: an unclosed labelled fence yields the whole remainder,
with concrete values. -/
theorem c10_labeled_fence_witness :
    noBacktick (str "Answer: ") = true ∧
    mainCandidate (str "Answer: " ++ sepJ ++ str "\x7b\"a\": 1\x7d") =
      tBF sepA (tBF sepJ (str "\x7b\"a\": 1\x7d")) ∧
    containsSub sepA (str "\x7b\"a\": 1\x7d") = false ∧
    mainCandidate (str "Answer: " ++ sepJ ++ str "\x7b\"a\": 1\x7d") = str "\x7b\"a\": 1\x7d" :=
  ⟨by decide, (c10_labeled_fence _ _ (by decide)).1, by decide,
    (c10_labeled_fence _ _ (by decide)).2 (by decide)⟩

/-- Counterexample for C10: when a second `json` tag overlaps the closing
backtick run, the candidate keeps a stray backtick, so it is not the region
up to the next fence delimiter. -/
theorem c10_counterexample :
    mainCandidate (str "```jsonAB````json") = str "AB`" ∧
    claim10Candidate (str "```jsonAB````json") = str "AB" ∧
    mainCandidate (str "```jsonAB````json") ≠ claim10Candidate (str "```jsonAB````json") :=
  ⟨by decide, by decide, by decide⟩


set_option maxRecDepth 100000

/-- Claim C2 (corrected): extraction in the browser agent is total — its
handler catches every exception, so any text yields a well-formed result —
but the main agent's extraction raises past the caller when the selected
candidate parses as JSON and fails report construction, because the pydantic
errors are outside the caught `(JSONDecodeError, IndexError, KeyError)`
tuple; its only escaping exceptions are TypeError (non-dict value) and
ValidationError (schema mismatch). -/
theorem c2_extraction_totality :
    (∀ event_id t, (browserExtract event_id t).isOk = true) ∧
    (∀ t e, mainExtract t = .error e →
      e = PyError.typeErr ∨ e = PyError.validationErr) := by
  constructor
  · intro eid t
    unfold browserExtract
    cases hp : pyJsonLoads (pyStrip (browserCandidate t)) with
    | error e => rfl
    | ok v =>
      cases hv : validateLogAnalysisResult v with
      | ok r => simp [hv, Except.isOk, Except.toBool]
      | error e2 => simp [hv, Except.isOk, Except.toBool]
  · intro t e h
    unfold mainExtract at h
    cases hp : pyJsonLoads (pyStrip (mainCandidate t)) with
    | error e2 => rw [hp] at h; exact absurd h (by simp)
    | ok v =>
      rw [hp] at h
      have h2 : validateAnalysisReport v = .error e := h
      cases v with
      | jobj kvs =>
        unfold validateAnalysisReport at h2
        split at h2
        · split at h2
          · exact absurd h2 (by simp)
          · right
            injection h2 with h3
            exact h3.symm
        · exact (‹∀ kvs2 : List (Str × Json), Json.jobj kvs = Json.jobj kvs2 → False› kvs rfl).elim
      | jnull =>
        exact Or.inl (by injection h2 with h3; exact h3.symm)
      | jbool b =>
        exact Or.inl (by injection h2 with h3; exact h3.symm)
      | jnum lex =>
        exact Or.inl (by injection h2 with h3; exact h3.symm)
      | jstr s =>
        exact Or.inl (by injection h2 with h3; exact h3.symm)
      | jarr items =>
        exact Or.inl (by injection h2 with h3; exact h3.symm)

/-- Counterexample for C2: valid JSON that misses required report fields
makes the main extraction raise a ValidationError instead of returning. -/
theorem c2_counterexample :
    mainExtract (str "\x7b\"event_id\": \"X\"\x7d") = .error PyError.validationErr := by
  decide

/-- Witness for C2 at concrete inputs. -/
theorem c2_extraction_totality_witness :
    (browserExtract (str "E") (str "no json here")).isOk = true ∧
    (PyError.validationErr = PyError.typeErr ∨ PyError.validationErr = PyError.validationErr) :=
  ⟨c2_extraction_totality.1 (str "E") (str "no json here"),
    c2_extraction_totality.2 (str "\x7b\"event_id\": \"X\"\x7d") PyError.validationErr (by decide)⟩


/-- Witness for C9 at a concrete report and surrounding text. -/
theorem c9_fenced_roundtrip_witness :
    plainStr (str "DJC-CF-1") = true ∧ noBacktick (str "Result:\n") = true ∧
    mainExtract (str "Result:\n" ++ sepJ ++
      ('\n' :: reportText ⟨str "DJC-CF-1", str "-6712", str "coupon query failed",
        str "degraded", str "high", str "retry later"⟩ ++ ['\n']) ++ sepA ++ str "\nDone.") =
      .ok ⟨str "DJC-CF-1", str "-6712", str "coupon query failed",
        str "degraded", str "high", str "retry later"⟩ :=
  ⟨by decide, by decide,
    c9_fenced_roundtrip ⟨str "DJC-CF-1", str "-6712", str "coupon query failed",
        str "degraded", str "high", str "retry later"⟩ (str "Result:\n") (str "\nDone.")
      (by decide) (by decide) (by decide) (by decide) (by decide) (by decide)
      (by decide) (by decide)⟩

/-- Claim C4 (corrected): whenever the extraction handler runs (for the main
agent: the candidate fails JSON parsing — validation failures raise instead,
see C2; for the browser agent: any parse or validation failure), the
degraded report has error code `"PARSE_ERROR"`, risk level `"medium"`, the
identifier `"UNKNOWN"` in the main agent and the original call's identifier
in the browser agent, a fixed manual-inspection recommendation, and a
summary equal to the first 200 characters of the original text when that
text is non-empty and a fixed placeholder message when it is empty. -/
theorem c4_degraded_report :
    (∀ t, (pyJsonLoads (pyStrip (mainCandidate t))).isOk = false →
      mainExtract t = .ok ⟨str "UNKNOWN", str "PARSE_ERROR",
        (if t = [] then str "无法解析模型输出" else t.take 200),
        str "未知", str "medium", str "请检查 Agent 输出格式"⟩) ∧
    (∀ event_id t, browserFallback t = true →
      browserExtract event_id t = .ok ⟨event_id, str "PARSE_ERROR",
        (if t = [] then str "无法解析 Agent 输出" else t.take 200),
        str "未知", none, str "medium",
        str "请检查日志页面是否正常加载，或手动查看浏览器窗口", none⟩) := by
  constructor
  · intro t h
    unfold mainExtract
    cases hp : pyJsonLoads (pyStrip (mainCandidate t)) with
    | error e =>
      show Except.ok (degradedMain t) = _
      unfold degradedMain
      by_cases ht : t = []
      · subst ht; simp
      · simp [ht]
    | ok v =>
      rw [hp] at h
      exact absurd h (by simp [Except.isOk, Except.toBool])
  · intro eid t h
    unfold browserFallback at h
    unfold browserExtract
    cases hp : pyJsonLoads (pyStrip (browserCandidate t)) with
    | error e =>
      show Except.ok (degradedBrowser eid t) = _
      unfold degradedBrowser
      by_cases ht : t = []
      · subst ht; simp
      · simp [ht]
    | ok v =>
      rw [hp] at h
      have h2 : (!(validateLogAnalysisResult v).isOk) = true := h
      cases hv : validateLogAnalysisResult v with
      | ok r =>
        rw [hv] at h2
        exact absurd h2 (by simp [Except.isOk, Except.toBool])
      | error e2 =>
        simp only [hv]
        show Except.ok (degradedBrowser eid t) = _
        unfold degradedBrowser
        by_cases ht : t = []
        · subst ht; simp
        · simp [ht]

/-- Counterexample for C4: on the empty final answer the degraded summary is
the fixed placeholder message, not the first 200 characters of the original
text (which would be empty). -/
theorem c4_counterexample :
    mainExtract [] = .ok ⟨str "UNKNOWN", str "PARSE_ERROR", str "无法解析模型输出",
      str "未知", str "medium", str "请检查 Agent 输出格式"⟩ ∧
    str "无法解析模型输出" ≠ ([] : Str).take 200 :=
  ⟨by decide, by decide⟩

/-- Witness for C4 at a concrete prose answer. -/
theorem c4_degraded_report_witness :
    (pyJsonLoads (pyStrip (mainCandidate (str "plain prose answer")))).isOk = false ∧
    mainExtract (str "plain prose answer") = .ok ⟨str "UNKNOWN", str "PARSE_ERROR",
      (if str "plain prose answer" = ([] : Str) then str "无法解析模型输出"
        else (str "plain prose answer").take 200),
      str "未知", str "medium", str "请检查 Agent 输出格式"⟩ ∧
    browserFallback (str "plain prose answer") = true ∧
    browserExtract (str "E") (str "plain prose answer") = .ok ⟨str "E", str "PARSE_ERROR",
      (if str "plain prose answer" = ([] : Str) then str "无法解析 Agent 输出"
        else (str "plain prose answer").take 200),
      str "未知", none, str "medium",
      str "请检查日志页面是否正常加载，或手动查看浏览器窗口", none⟩ :=
  ⟨by decide, c4_degraded_report.1 (str "plain prose answer") (by decide), by decide,
    c4_degraded_report.2 (str "E") (str "plain prose answer") (by decide)⟩


/-- Claim C7 (corrected): tool invocation absorbs unknown tool names (a
descriptive error text returned as the tool result, regardless of the
arguments) and collaborator request errors (surfaced as an error text), and
a well-keyed `check_server_status` call always returns text; but an argument
mapping that does not bind the tool function's parameters raises a TypeError
past the registry boundary. -/
theorem c7_invoke_boundary :
    (∀ (http : HttpRequest → HttpOutcome) (now cookie : Str) (name : Str) (args : Json),
      name ≠ str "fetch_error_log" → name ≠ str "check_server_status" →
      execute_tool http now cookie name args = .ok (unknownToolText name)) ∧
    (∀ (msg now cookie e : Str),
      execute_tool (fun _ => .raises msg) now cookie (str "fetch_error_log")
        (.jobj [(str "event_id", .jstr e)]) = .ok (fetchFailText msg)) ∧
    (∀ (http : HttpRequest → HttpOutcome) (now cookie s : Str),
      execute_tool http now cookie (str "check_server_status")
        (.jobj [(str "service_name", .jstr s)]) = .ok (check_server_status now s)) := by
  refine ⟨?_, ?_, ?_⟩
  · intro http now cookie name args h1 h2
    unfold execute_tool
    rw [if_neg h1, if_neg h2]
  · intro msg now cookie e
    rfl
  · intro http now cookie s
    rfl

/-- Counterexample for C7: an empty argument mapping for `fetch_error_log`
raises a TypeError past the registry boundary instead of returning text. -/
theorem c7_counterexample :
    execute_tool (fun _ => .raises []) (str "T") [] (str "fetch_error_log") (.jobj []) =
      .error PyError.typeErr := by decide

/-- Witness for C7 at concrete values. -/
theorem c7_invoke_boundary_witness :
    execute_tool (fun _ => .raises []) (str "T") [] (str "mystery_tool") (.jobj []) =
      .ok (unknownToolText (str "mystery_tool")) ∧
    execute_tool (fun _ => .raises (str "boom")) (str "T") [] (str "fetch_error_log")
      (.jobj [(str "event_id", .jstr (str "DJC-1"))]) = .ok (fetchFailText (str "boom")) ∧
    execute_tool (fun _ => .raises []) (str "T") [] (str "check_server_status")
      (.jobj [(str "service_name", .jstr (str "auth-service"))]) =
      .ok (check_server_status (str "T") (str "auth-service")) :=
  ⟨c7_invoke_boundary.1 (fun _ => .raises []) (str "T") [] (str "mystery_tool") (.jobj [])
      (by decide) (by decide),
    c7_invoke_boundary.2.1 (str "boom") (str "T") [] (str "DJC-1"),
    c7_invoke_boundary.2.2 (fun _ => .raises []) (str "T") [] (str "auth-service")⟩

/-- Claim C8 (corrected): when every requested invocation's arguments parse
and its dispatch completes (which holds in particular for unknown tools and
for collaborator request errors, both absorbed into text), the invocations
are processed synchronously in the order returned, each yields a tool-result
turn tagged with its correlation id, and the loop appends the assistant turn
followed by those result turns in the same order; but an invocation whose
argument text is not valid JSON raises and produces no result turn. -/
theorem c8_tool_dispatch_order
    (http : HttpRequest → HttpOutcome) (now cookie : Str) (calls : List ToolCall)
    (h : ∀ tc ∈ calls, (processToolCall http now cookie tc).isOk = true) :
    ∃ ms, processToolCalls http now cookie calls = .ok ms ∧
      List.Forall₂ (fun tc m => processToolCall http now cookie tc = .ok m ∧
        ∃ t, m = Message.tool tc.id t) calls ms ∧
      ∀ (model : List Message → AssistantMsg) (n : Nat) (msgs : List Message),
        (model msgs).tool_calls = calls → calls ≠ [] →
        analyzeAux model http now cookie (n + 1) msgs =
          analyzeAux model http now cookie n
            (msgs ++ [Message.assistant (model msgs).content calls] ++ ms) := by
  obtain ⟨ms, hms, hfa⟩ := processToolCalls_all_ok calls h
  refine ⟨ms, hms, hfa, ?_⟩
  intro model n msgs hmc hne
  have := analyzeAux_tools model http now cookie n msgs ms (by rw [hmc]; exact hne)
    (by rw [hmc]; exact hms)
  rw [hmc] at this
  exact this

/-- Counterexample for C8: a requested invocation with malformed argument
text aborts with a JSONDecodeError and produces no tool-result turn. -/
theorem c8_counterexample :
    processToolCalls (fun _ => .raises []) (str "T") []
      [⟨str "call_1", str "fetch_error_log", str "oops"⟩] =
      .error PyError.jsonDecodeErr := by decide

/-- Witness for C8: a collaborator-error call followed by an unknown-tool
call both yield result turns, in order, tagged with their ids. -/
theorem c8_tool_dispatch_order_witness :
    ∃ ms, processToolCalls (fun _ => .raises (str "down")) (str "T") []
        [⟨str "id1", str "fetch_error_log", str "\x7b\"event_id\": \"E\"\x7d"⟩,
          ⟨str "id2", str "mystery", str "\x7b\x7d"⟩] = .ok ms ∧
      List.Forall₂ (fun tc m => processToolCall (fun _ => .raises (str "down")) (str "T") [] tc =
          .ok m ∧ ∃ t, m = Message.tool tc.id t)
        [⟨str "id1", str "fetch_error_log", str "\x7b\"event_id\": \"E\"\x7d"⟩,
          ⟨str "id2", str "mystery", str "\x7b\x7d"⟩] ms ∧
      ∀ (model : List Message → AssistantMsg) (n : Nat) (msgs : List Message),
        (model msgs).tool_calls =
          [⟨str "id1", str "fetch_error_log", str "\x7b\"event_id\": \"E\"\x7d"⟩,
            ⟨str "id2", str "mystery", str "\x7b\x7d"⟩] →
        [(⟨str "id1", str "fetch_error_log", str "\x7b\"event_id\": \"E\"\x7d"⟩ : ToolCall),
          ⟨str "id2", str "mystery", str "\x7b\x7d"⟩] ≠ [] →
        analyzeAux model (fun _ => .raises (str "down")) (str "T") [] (n + 1) msgs =
          analyzeAux model (fun _ => .raises (str "down")) (str "T") [] n
            (msgs ++ [Message.assistant (model msgs).content
              [⟨str "id1", str "fetch_error_log", str "\x7b\"event_id\": \"E\"\x7d"⟩,
                ⟨str "id2", str "mystery", str "\x7b\x7d"⟩]] ++ ms) :=
  c8_tool_dispatch_order (fun _ => .raises (str "down")) (str "T") []
    [⟨str "id1", str "fetch_error_log", str "\x7b\"event_id\": \"E\"\x7d"⟩,
      ⟨str "id2", str "mystery", str "\x7b\x7d"⟩]
    (by intro tc hm; fin_cases hm <;> decide)


/-- Claim C5 (corrected): `analyze` performs at most 10 loop iterations.  It
terminates at the first assistant turn with no tool calls, with the
extraction outcome of that turn's content (independently of the remaining
fuel and of any later model behaviour); and when every turn requests tool
calls whose dispatch completes, all 10 iterations are consumed and the call
fails with the iteration-budget RuntimeError, with no automatic retry.  A
turn whose tool dispatch raises makes the call fail with that exception
instead of the budget error. -/
theorem c5_iteration_budget :
    (∀ (model : List Message → AssistantMsg) (http : HttpRequest → HttpOutcome)
        (now cookie input : Str),
      (∀ msgs, (model msgs).tool_calls ≠ []) →
      (∀ msgs, ∀ tc ∈ (model msgs).tool_calls,
        (processToolCall http now cookie tc).isOk = true) →
      analyze model http now cookie input = .error PyError.runtimeBudget) ∧
    (∀ (model : List Message → AssistantMsg) (http : HttpRequest → HttpOutcome)
        (now cookie : Str) (n : Nat) (msgs : List Message),
      (model msgs).tool_calls = [] →
      analyzeAux model http now cookie (n + 1) msgs =
        mainExtract ((model msgs).content.getD [])) := by
  constructor
  · intro model http now cookie input h1 h2
    exact analyzeAux_budget model http now cookie h1 h2 10 _
  · intro model http now cookie n msgs h
    exact analyzeAux_final model http now cookie n msgs h

/-- Counterexample for C5: a model that always requests a tool call with
malformed argument text makes `analyze` fail with a JSONDecodeError, not
with the iteration-budget error. -/
theorem c5_counterexample :
    analyze (fun _ => ⟨none, [⟨str "1", str "fetch_error_log", str "oops"⟩]⟩)
      (fun _ => .raises []) (str "T") [] (str "hi") = .error PyError.jsonDecodeErr ∧
    PyError.jsonDecodeErr ≠ PyError.runtimeBudget :=
  ⟨by decide, by decide⟩

/-- Witness for C5: a model that always requests an unknown tool with
parseable arguments exhausts the budget; a model that immediately answers
terminates with that answer's extraction. -/
theorem c5_iteration_budget_witness :
    analyze (fun _ => ⟨none, [⟨str "1", str "mystery", str "\x7b\x7d"⟩]⟩)
      (fun _ => .raises []) (str "T") [] (str "hi") = .error PyError.runtimeBudget ∧
    analyzeAux (fun _ => ⟨some (str "hello"), []⟩) (fun _ => .raises []) (str "T") [] 10
      [Message.system (str systemPromptText), Message.user (str "hi")] =
      mainExtract (str "hello") :=
  ⟨c5_iteration_budget.1 (fun _ => ⟨none, [⟨str "1", str "mystery", str "\x7b\x7d"⟩]⟩)
      (fun _ => .raises []) (str "T") [] (str "hi")
      (fun _ => by simp)
      (fun _ tc hm => by fin_cases hm; decide),
    c5_iteration_budget.2 (fun _ => ⟨some (str "hello"), []⟩) (fun _ => .raises [])
      (str "T") [] 9 _ rfl⟩

/-- Claim C1 (corrected): when every requested tool call's dispatch
completes (arguments parse and bind, collaborator failures absorbed into
text) and every final answer's extraction completes (its candidate fails
JSON parsing, giving the degraded report, or parses and validates),
`analyze` either returns an AnalysisReport or fails with the
iteration-budget RuntimeError, and no other exception propagates; but
malformed tool-call argument text, mis-keyed arguments, and final output
that parses as JSON yet fails report validation raise exceptions past
`analyze` to the caller. -/
theorem c1_error_absorption
    (model : List Message → AssistantMsg) (http : HttpRequest → HttpOutcome)
    (now cookie input : Str)
    (htool : ∀ msgs, ∀ tc ∈ (model msgs).tool_calls,
      (processToolCall http now cookie tc).isOk = true)
    (hfinal : ∀ msgs, (model msgs).tool_calls = [] →
      (mainExtract ((model msgs).content.getD [])).isOk = true) :
    (∃ r, analyze model http now cookie input = .ok r) ∨
      analyze model http now cookie input = .error PyError.runtimeBudget :=
  analyzeAux_ok_or_budget model http now cookie htool hfinal 10 _

/-- Counterexample for C1: a final answer that parses as JSON but fails
report validation makes `analyze` raise a ValidationError, which is neither
a returned report nor the iteration-budget error. -/
theorem c1_counterexample :
    analyze (fun _ => ⟨some (str "\x7b\"event_id\": \"X\"\x7d"), []⟩)
      (fun _ => .raises []) (str "T") [] (str "hi") = .error PyError.validationErr ∧
    PyError.validationErr ≠ PyError.runtimeBudget :=
  ⟨by decide, by decide⟩

/-- Witness for C1: a model that immediately answers with prose yields a
degraded report rather than an exception. -/
theorem c1_error_absorption_witness :
    (∃ r, analyze (fun _ => ⟨some (str "hello"), []⟩) (fun _ => .raises [])
        (str "T") [] (str "hi") = .ok r) ∨
      analyze (fun _ => ⟨some (str "hello"), []⟩) (fun _ => .raises [])
        (str "T") [] (str "hi") = .error PyError.runtimeBudget :=
  c1_error_absorption (fun _ => ⟨some (str "hello"), []⟩) (fun _ => .raises [])
    (str "T") [] (str "hi")
    (fun _ tc hm => by simp at hm)
    (fun _ _ => show (mainExtract ((some (str "hello")).getD [])).isOk = true from by decide)

end LogAnalyzer
